import Mathlib

/-!
Verification of the upgrade reconciliation logic of the syndesis operator
(`pkg/syndesis/action/upgrade.go`).

The Go function `Upgrade.Execute` is embedded as a pure function from
(operator version cache, installation, environment) to an effect record.
The environment collects the results of every external call the function
makes (version resolution, resource rendering and loading, the cluster
`get` of the live upgrade pod, the per-resource apply results, the status
update result, and the current time), so that one evaluation of the Lean
function corresponds to one run of `Execute` against that external state.
-/

namespace SyndesisUpgrade

/-- Installation phase values of the Syndesis status
(`v1alpha1.SyndesisInstallationStatus*`). -/
inductive InstallationStatusType where
  | notInstalled
  | installing
  | upgrading
  | upgradeFailureBackoff
  | installed
deriving DecidableEq, Repr

/-- Status reason codes (`v1alpha1.SyndesisStatusReason*`). -/
inductive StatusReason where
  | missing
  | upgradePodFailed
deriving DecidableEq, Repr

/-- The `Status` sub-record of a Syndesis installation. Time is modelled as
a natural number of ticks. -/
structure SyndesisStatus where
  installationStatus : InstallationStatusType
  reason : StatusReason
  version : String
  lastUpgradeFailure : Option Nat
  upgradeAttempts : Nat
  forceUpgrade : Bool
deriving DecidableEq, Repr

/-- A Syndesis installation: identity plus status. -/
structure Syndesis where
  name : String
  ns : String
  status : SyndesisStatus
deriving DecidableEq, Repr

/-- Pod phases (`v1.PodSucceeded`, `v1.PodFailed`, and the rest). -/
inductive PodPhase where
  | pending
  | running
  | succeeded
  | failed
  | unknown
deriving DecidableEq, Repr

/-- A loaded Kubernetes resource, as far as the upgrade logic inspects it:
whether it is a `v1.Pod` (the type assertion in `findUpgradePod`), its name,
its pod service account name, and the namespace and owner reference stamped
by `setNamespaceAndOwnerReference`. -/
structure Resource where
  isPod : Bool
  resName : String
  serviceAccountName : String
  ns : String
  ownerRef : Option String
deriving DecidableEq, Repr

/-- Outcome of the cluster `sdk.Get` for the live upgrade pod:
found with a phase, a NotFound error, or another error. -/
inductive GetPodResult where
  | found (phase : PodPhase)
  | notFound
  | getError (e : String)
deriving DecidableEq, Repr

/-- True exactly when the `sdk.Get` outcome is an error other than NotFound. -/
def GetPodResult.isErr : GetPodResult → Bool
  | .getError _ => true
  | _ => false

/-- External state observed by one `Execute` call. `namespaceVersion` is the
first `GetSyndesisVersionFromNamespace` result, `namespaceVersionRecheck` the
second one (taken only on the pod-succeeded path). `upgradeResources` combines
`syndesistemplate.GetUpgradeResources` and `util.LoadKubernetesResource`.
`applyErr i` is the outcome of `createOrReplaceForce` for the resource at
index `i`. -/
structure Env where
  operatorTemplateVersion : Except String String
  namespaceVersion : Except String String
  namespaceVersionRecheck : Except String String
  upgradeResources : Except String (List Resource)
  livePod : GetPodResult
  applyErr : Nat → Option String
  updateErr : Option String
  now : Nat

/-- Effects of one `Execute` call: the returned error (`none` = nil),
the operator version cache after the call, the `createOrReplaceForce` calls
issued (resource just before apply, paired with the force flag), and the
status submitted through `sdk.Update`, when any. -/
structure ExecResult where
  ret : Option String
  cacheAfter : String
  applied : List (Resource × Bool)
  statusSubmitted : Option SyndesisStatus
deriving Repr

/-- `UpgradePodServiceAccountName` constant of `upgrade.go`. -/
def UpgradePodServiceAccountName : String := "syndesis-operator"

/-- `setNamespaceAndOwnerReference`: stamp namespace and owner reference. -/
def setNamespaceAndOwnerReference (res : Resource) (syndesis : Syndesis) : Resource :=
  { res with ns := syndesis.ns, ownerRef := some syndesis.name }

/-- `Upgrade.findUpgradePod`: first resource that is a `v1.Pod`, or the
error `upgrade pod not found`. -/
def findUpgradePod : List Resource → Except String Resource
  | [] => Except.error "upgrade pod not found"
  | r :: rest => if r.isPod then Except.ok r else findUpgradePod rest

/-- The assignment `templateUpgradePod.Spec.ServiceAccountName =
UpgradePodServiceAccountName`: `templateUpgradePod` is a pointer to the first
pod inside the rendered resource slice, so the assignment updates that slice
element in place. -/
def setUpgradePodServiceAccount : List Resource → List Resource
  | [] => []
  | r :: rest =>
      if r.isPod then
        { r with serviceAccountName := UpgradePodServiceAccountName } :: rest
      else
        r :: setUpgradePodServiceAccount rest

/-- The apply loop of `Execute`: for each resource in order, stamp namespace
and owner reference, then `createOrReplaceForce(res, true)`; stop at the first
apply error. Returns the issued calls and the first error, if any. -/
def applyAll (syndesis : Syndesis) (applyErr : Nat → Option String) :
    List Resource → Nat → List (Resource × Bool) × Option String
  | [], _ => ([], none)
  | r :: rest, i =>
      let r' := setNamespaceAndOwnerReference r syndesis
      match applyErr i with
      | some e => ([(r', true)], some e)
      | none =>
          let tail := applyAll syndesis applyErr rest (i + 1)
          ((r', true) :: tail.1, tail.2)

/-- `upgradeCompleted`: the status submitted when the upgrade is done. -/
def upgradeCompletedStatus (st : SyndesisStatus) (newVersion : String) : SyndesisStatus :=
  { st with
    installationStatus := InstallationStatusType.installed
    reason := StatusReason.missing
    version := newVersion
    lastUpgradeFailure := none
    upgradeAttempts := 0
    forceUpgrade := false }

/-- The lazy operator version cache at the top of `Execute`: an empty cache
reads the bundled template, a non-empty one is used as is. -/
def resolveTargetVersion (operatorVersionCache : String) (env : Env) : Except String String :=
  if operatorVersionCache = "" then env.operatorTemplateVersion
  else Except.ok operatorVersionCache

/-- Branch A of `Execute` (upgrade pod not found, or upgrade forced):
if the namespace version differs from the target, set the upgrade pod
service account, apply every rendered resource with force, then clear
`forceUpgrade` when it was set; otherwise commit the completed status. -/
def upgradeOrComplete (operatorVersion namespaceVersion : String) (syndesis : Syndesis)
    (env : Env) (resources : List Resource) : ExecResult :=
  if namespaceVersion ≠ operatorVersion then
    match applyAll syndesis env.applyErr (setUpgradePodServiceAccount resources) 0 with
    | (applied, some e) => ⟨some e, operatorVersion, applied, none⟩
    | (applied, none) =>
        if syndesis.status.forceUpgrade then
          ⟨env.updateErr, operatorVersion, applied,
            some { syndesis.status with forceUpgrade := false }⟩
        else
          ⟨none, operatorVersion, applied, none⟩
  else
    ⟨env.updateErr, operatorVersion, [],
      some (upgradeCompletedStatus syndesis.status operatorVersion)⟩

/-- Branch B of `Execute` (upgrade pod present, not forced): inspect the
pod phase. On success, re-resolve the namespace version; matching target
completes the upgrade, otherwise `forceUpgrade` is set. On failure, commit
the backoff status. Any other phase is still running: no effect. -/
def checkUpgradePodPhase (operatorVersion : String) (syndesis : Syndesis) (env : Env)
    (phase : PodPhase) : ExecResult :=
  if phase = PodPhase.succeeded then
    match env.namespaceVersionRecheck with
    | Except.error e => ⟨some e, operatorVersion, [], none⟩
    | Except.ok newNamespaceVersion =>
        if newNamespaceVersion = operatorVersion then
          ⟨env.updateErr, operatorVersion, [],
            some (upgradeCompletedStatus syndesis.status operatorVersion)⟩
        else
          ⟨env.updateErr, operatorVersion, [],
            some { syndesis.status with forceUpgrade := true }⟩
  else if phase = PodPhase.failed then
    ⟨env.updateErr, operatorVersion, [],
      some { syndesis.status with
        installationStatus := InstallationStatusType.upgradeFailureBackoff
        reason := StatusReason.upgradePodFailed
        lastUpgradeFailure := some env.now
        upgradeAttempts := syndesis.status.upgradeAttempts + 1 }⟩
  else
    ⟨none, operatorVersion, [], none⟩

/-- `Upgrade.Execute`: resolve the target version (lazily cached) and the
namespace version, render and load the upgrade resources, locate the upgrade
pod template, fetch the live upgrade pod, then branch on forced upgrade and
pod presence exactly as the Go function does. -/
def Execute (operatorVersionCache : String) (syndesis : Syndesis) (env : Env) : ExecResult :=
  match resolveTargetVersion operatorVersionCache env with
  | Except.error e => ⟨some e, operatorVersionCache, [], none⟩
  | Except.ok operatorVersion =>
    match env.namespaceVersion with
    | Except.error e => ⟨some e, operatorVersion, [], none⟩
    | Except.ok namespaceVersion =>
      match env.upgradeResources with
      | Except.error e => ⟨some e, operatorVersion, [], none⟩
      | Except.ok resources =>
        match findUpgradePod resources with
        | Except.error e => ⟨some e, operatorVersion, [], none⟩
        | Except.ok _templateUpgradePod =>
          match env.livePod with
          | GetPodResult.getError e => ⟨some e, operatorVersion, [], none⟩
          | GetPodResult.notFound =>
              upgradeOrComplete operatorVersion namespaceVersion syndesis env resources
          | GetPodResult.found phase =>
              if syndesis.status.forceUpgrade then
                upgradeOrComplete operatorVersion namespaceVersion syndesis env resources
              else
                checkUpgradePodPhase operatorVersion syndesis env phase

/-- Modelled from the spec: the helper `syndesisInstallationStatusIs` lives
outside the given sources; per the spec the entry guard `CanExecute` checks
that the installation phase is `Upgrading`. -/
def syndesisInstallationStatusIs (syndesis : Syndesis) (s : InstallationStatusType) : Bool :=
  syndesis.status.installationStatus = s

/-- `Upgrade.CanExecute`: the action runs only in phase `Upgrading`. -/
def CanExecute (syndesis : Syndesis) : Bool :=
  syndesisInstallationStatusIs syndesis InstallationStatusType.upgrading

/- Concrete sample data used by witnesses and counterexamples. -/

/-- A non-pod rendered resource. -/
def exCfg : Resource :=
  { isPod := false, resName := "upgrade-config", serviceAccountName := "", ns := "",
    ownerRef := none }

/-- The rendered upgrade pod resource. -/
def exPod : Resource :=
  { isPod := true, resName := "upgrade-pod", serviceAccountName := "", ns := "",
    ownerRef := none }

/-- A status in phase Upgrading with two prior attempts. -/
def exStatus : SyndesisStatus :=
  { installationStatus := InstallationStatusType.upgrading
    reason := StatusReason.missing
    version := "1.4.2"
    lastUpgradeFailure := some 7
    upgradeAttempts := 2
    forceUpgrade := false }

/-- A sample installation. -/
def exSyn : Syndesis := { name := "app", ns := "prod", status := exStatus }

/-- The same installation with `forceUpgrade` set. -/
def exSynForce : Syndesis :=
  { exSyn with status := { exStatus with forceUpgrade := true } }

/-- A fully healthy environment: target `1.5.0`, live `1.4.2`, two rendered
resources, no live pod, no apply or update failures. -/
def exEnv : Env :=
  { operatorTemplateVersion := Except.ok "1.5.0"
    namespaceVersion := Except.ok "1.4.2"
    namespaceVersionRecheck := Except.ok "1.5.0"
    upgradeResources := Except.ok [exCfg, exPod]
    livePod := GetPodResult.notFound
    applyErr := fun _ => none
    updateErr := none
    now := 100 }

/- Helper lemmas. -/

/-- The task locator returns exactly the first pod of the list. -/
lemma findUpgradePod_eq_find (rs : List Resource) :
    findUpgradePod rs =
      match rs.find? (fun r => r.isPod) with
      | some p => Except.ok p
      | none => Except.error "upgrade pod not found" := by
  induction rs with
  | nil => rfl
  | cons r rest ih =>
      by_cases h : r.isPod = true
      · simp [findUpgradePod, h, List.find?_cons_of_pos]
      · simp only [findUpgradePod, h, if_false, Bool.false_eq_true]
        rw [List.find?_cons_of_neg _ (by simpa using h)]
        exact ih

/-- When every apply call succeeds, the apply loop issues one forced call per
resource, in order, each stamped with namespace and owner reference. -/
lemma applyAll_all_ok (syndesis : Syndesis) (f : Nat → Option String)
    (hf : ∀ j, f j = none) :
    ∀ (rs : List Resource) (i : Nat),
      applyAll syndesis f rs i =
        (rs.map (fun r => (setNamespaceAndOwnerReference r syndesis, true)), none) := by
  intro rs
  induction rs with
  | nil => intro i; rfl
  | cons r rest ih => intro i; simp [applyAll, hf i, ih (i + 1)]

/-- The first pod among the resources the apply loop touched is the first pod
of the full stamped list (the touched list is an initial segment). -/
lemma applyAll_find_pod (syndesis : Syndesis) (f : Nat → Option String) (p : Resource) :
    ∀ (rs : List Resource) (i : Nat),
      ((applyAll syndesis f rs i).1.map Prod.fst).find? (fun r => r.isPod) = some p →
      (rs.map (fun r => setNamespaceAndOwnerReference r syndesis)).find?
        (fun r => r.isPod) = some p := by
  intro rs
  induction rs with
  | nil => intro i h; simp [applyAll] at h
  | cons r rest ih =>
      intro i h
      by_cases hp : (setNamespaceAndOwnerReference r syndesis).isPod = true
      · cases hfi : f i with
        | some e =>
            simp only [applyAll, hfi, List.map_cons, List.map_nil] at h
            rw [List.find?_cons_of_pos _ hp] at h
            simp only [Option.some_inj] at h
            simp only [List.map_cons]
            rw [List.find?_cons_of_pos _ hp, h]
        | none =>
            simp only [applyAll, hfi, List.map_cons] at h
            rw [List.find?_cons_of_pos _ hp] at h
            simp only [List.map_cons]
            rw [List.find?_cons_of_pos _ hp]
            exact h
      · cases hfi : f i with
        | some e =>
            simp only [applyAll, hfi, List.map_cons, List.map_nil] at h
            rw [List.find?_cons_of_neg _ (by simpa using hp)] at h
            simp at h
        | none =>
            simp only [applyAll, hfi, List.map_cons] at h
            rw [List.find?_cons_of_neg _ (by simpa using hp)] at h
            simp only [List.map_cons]
            rw [List.find?_cons_of_neg _ (by simpa using hp)]
            exact ih (i + 1) h

/-- After the service account assignment, the first pod of the stamped resource
list carries the fixed upgrade pod service account name. -/
lemma setSA_find_pod (syndesis : Syndesis) (p : Resource) :
    ∀ rs : List Resource,
      (((setUpgradePodServiceAccount rs).map
          (fun r => setNamespaceAndOwnerReference r syndesis)).find?
        (fun r => r.isPod)) = some p →
      p.serviceAccountName = UpgradePodServiceAccountName := by
  intro rs
  induction rs with
  | nil => intro h; simp [setUpgradePodServiceAccount] at h
  | cons r rest ih =>
      intro h
      by_cases hp : r.isPod = true
      · simp only [setUpgradePodServiceAccount, hp, if_true, List.map_cons] at h
        rw [List.find?_cons_of_pos _ (by simp [setNamespaceAndOwnerReference, hp])] at h
        simp only [Option.some_inj] at h
        subst h
        rfl
      · simp only [setUpgradePodServiceAccount, hp, if_false, Bool.false_eq_true,
          List.map_cons] at h
        rw [List.find?_cons_of_neg _ (by simp [setNamespaceAndOwnerReference, hp])] at h
        exact ih h

/-- Branch A commits either the force-cleared status or the completed status. -/
lemma upgradeOrComplete_submitted (opv nsv : String) (syndesis : Syndesis) (env : Env)
    (resources : List Resource) (st : SyndesisStatus)
    (h : (upgradeOrComplete opv nsv syndesis env resources).statusSubmitted = some st) :
    st = { syndesis.status with forceUpgrade := false }
    ∨ st = upgradeCompletedStatus syndesis.status opv := by
  unfold upgradeOrComplete at h
  split at h
  · split at h
    · simp at h
    · split at h
      · simp only [Option.some_inj] at h
        exact Or.inl h.symm
      · simp at h
  · simp only [Option.some_inj] at h
    exact Or.inr h.symm

/-- Branch B commits the completed status, the force-set status, or the
backoff status. -/
lemma checkUpgradePodPhase_submitted (opv : String) (syndesis : Syndesis) (env : Env)
    (phase : PodPhase) (st : SyndesisStatus)
    (h : (checkUpgradePodPhase opv syndesis env phase).statusSubmitted = some st) :
    st = upgradeCompletedStatus syndesis.status opv
    ∨ st = { syndesis.status with forceUpgrade := true }
    ∨ st = { syndesis.status with
        installationStatus := InstallationStatusType.upgradeFailureBackoff
        reason := StatusReason.upgradePodFailed
        lastUpgradeFailure := some env.now
        upgradeAttempts := syndesis.status.upgradeAttempts + 1 } := by
  unfold checkUpgradePodPhase at h
  split at h
  · split at h
    · simp at h
    · split at h
      · simp only [Option.some_inj] at h
        exact Or.inl h.symm
      · simp only [Option.some_inj] at h
        exact Or.inr (Or.inl h.symm)
  · split at h
    · simp only [Option.some_inj] at h
      exact Or.inr (Or.inr h.symm)
    · simp at h

/-- When `forceUpgrade` is set, a branch A run without error always submits a
status with `forceUpgrade` cleared. -/
lemma upgradeOrComplete_clears_force (opv nsv : String) (syndesis : Syndesis) (env : Env)
    (resources : List Resource)
    (hf : syndesis.status.forceUpgrade = true)
    (hok : (upgradeOrComplete opv nsv syndesis env resources).ret = none) :
    ∃ st, (upgradeOrComplete opv nsv syndesis env resources).statusSubmitted = some st
      ∧ st.forceUpgrade = false := by
  rcases ha : applyAll syndesis env.applyErr (setUpgradePodServiceAccount resources) 0
    with ⟨applied, err⟩
  by_cases hv : nsv = opv
  · simp only [upgradeOrComplete, hv, ne_eq, not_true_eq_false, if_false]
    exact ⟨_, rfl, rfl⟩
  · cases err with
    | some e =>
        exfalso
        simp [upgradeOrComplete, hv, ha] at hok
    | none =>
        simp only [upgradeOrComplete, hv, ne_eq, not_false_eq_true, if_true, ha, hf]
        exact ⟨_, rfl, rfl⟩

/-- Every status a run of `Execute` submits is one of the four commit shapes
of the Go function. -/
lemma Execute_submitted_cases (cache : String) (syn : Syndesis) (env : Env)
    (st : SyndesisStatus)
    (h : (Execute cache syn env).statusSubmitted = some st) :
    st = { syn.status with forceUpgrade := false }
    ∨ st = { syn.status with forceUpgrade := true }
    ∨ (∃ v, st = upgradeCompletedStatus syn.status v)
    ∨ st = { syn.status with
        installationStatus := InstallationStatusType.upgradeFailureBackoff
        reason := StatusReason.upgradePodFailed
        lastUpgradeFailure := some env.now
        upgradeAttempts := syn.status.upgradeAttempts + 1 } := by
  unfold Execute at h
  cases htv : resolveTargetVersion cache env with
  | error e => simp only [htv] at h; simp at h
  | ok opv =>
    simp only [htv] at h
    cases hnv : env.namespaceVersion with
    | error e => simp only [hnv] at h; simp at h
    | ok nsv =>
      simp only [hnv] at h
      cases hres : env.upgradeResources with
      | error e => simp only [hres] at h; simp at h
      | ok rs =>
        simp only [hres] at h
        cases hfp : findUpgradePod rs with
        | error e => simp only [hfp] at h; simp at h
        | ok tp =>
          simp only [hfp] at h
          cases hlp : env.livePod with
          | getError e => simp only [hlp] at h; simp at h
          | notFound =>
              simp only [hlp] at h
              rcases upgradeOrComplete_submitted _ _ _ _ _ _ h with h1 | h1
              · exact Or.inl h1
              · exact Or.inr (Or.inr (Or.inl ⟨opv, h1⟩))
          | found ph =>
              simp only [hlp] at h
              by_cases hfu : syn.status.forceUpgrade = true
              · simp only [hfu, if_true] at h
                rcases upgradeOrComplete_submitted _ _ _ _ _ _ h with h1 | h1
                · exact Or.inl h1
                · exact Or.inr (Or.inr (Or.inl ⟨opv, h1⟩))
              · rw [Bool.not_eq_true] at hfu
                simp only [hfu, Bool.false_eq_true, if_false] at h
                rcases checkUpgradePodPhase_submitted _ _ _ _ _ h with h1 | h1 | h1
                · exact Or.inr (Or.inr (Or.inl ⟨opv, h1⟩))
                · exact Or.inr (Or.inl h1)
                · exact Or.inr (Or.inr (Or.inr h1))

/-- When every step before the branch decision succeeds and the pod is
absent or the upgrade is forced, `Execute` runs branch A. -/
lemma Execute_eq_upgradeOrComplete (cache : String) (syn : Syndesis) (env : Env)
    (t v : String) (rs : List Resource) (p : Resource)
    (ht : resolveTargetVersion cache env = Except.ok t)
    (hv : env.namespaceVersion = Except.ok v)
    (hrs : env.upgradeResources = Except.ok rs)
    (hfp : findUpgradePod rs = Except.ok p)
    (hbranch : env.livePod = GetPodResult.notFound ∨ syn.status.forceUpgrade = true)
    (hlp : GetPodResult.isErr env.livePod = false) :
    Execute cache syn env = upgradeOrComplete t v syn env rs := by
  unfold Execute
  simp only [ht, hv, hrs, hfp]
  cases h : env.livePod with
  | getError e => rw [h] at hlp; simp [GetPodResult.isErr] at hlp
  | notFound => simp
  | found ph =>
      rcases hbranch with hb | hb
      · rw [h] at hb; cases hb
      · simp [hb]

/-- When every step before the branch decision succeeds, the pod is present
and the upgrade is not forced, `Execute` runs branch B. -/
lemma Execute_eq_checkPhase (cache : String) (syn : Syndesis) (env : Env)
    (t v : String) (rs : List Resource) (p : Resource) (ph : PodPhase)
    (ht : resolveTargetVersion cache env = Except.ok t)
    (hv : env.namespaceVersion = Except.ok v)
    (hrs : env.upgradeResources = Except.ok rs)
    (hfp : findUpgradePod rs = Except.ok p)
    (hforce : syn.status.forceUpgrade = false)
    (hlp : env.livePod = GetPodResult.found ph) :
    Execute cache syn env = checkUpgradePodPhase t syn env ph := by
  unfold Execute
  simp only [ht, hv, hrs, hfp, hlp]
  simp [hforce]

/-- Branch A always reports the resolved operator version as the cache. -/
lemma upgradeOrComplete_cacheAfter (opv nsv : String) (syndesis : Syndesis) (env : Env)
    (resources : List Resource) :
    (upgradeOrComplete opv nsv syndesis env resources).cacheAfter = opv := by
  unfold upgradeOrComplete
  rcases ha : applyAll syndesis env.applyErr (setUpgradePodServiceAccount resources) 0
    with ⟨l, err⟩
  split
  · cases err with
    | some e => rfl
    | none =>
        by_cases hf : syndesis.status.forceUpgrade = true
        · simp [hf]
        · simp [hf]
  · rfl

/-- Branch B always reports the resolved operator version as the cache. -/
lemma checkUpgradePodPhase_cacheAfter (opv : String) (syndesis : Syndesis) (env : Env)
    (phase : PodPhase) :
    (checkUpgradePodPhase opv syndesis env phase).cacheAfter = opv := by
  unfold checkUpgradePodPhase
  split
  · split
    · rfl
    · split
      · rfl
      · rfl
  · split
    · rfl
    · rfl

/-- Branch B never applies resources. -/
lemma checkUpgradePodPhase_applied (opv : String) (syndesis : Syndesis) (env : Env)
    (phase : PodPhase) :
    (checkUpgradePodPhase opv syndesis env phase).applied = [] := by
  unfold checkUpgradePodPhase
  split
  · split
    · rfl
    · split
      · rfl
      · rfl
  · split
    · rfl
    · rfl

/-- Branch A either applies nothing or exactly the calls of the apply loop
over the service-account-adjusted resource list. -/
lemma upgradeOrComplete_applied (opv nsv : String) (syndesis : Syndesis) (env : Env)
    (resources : List Resource) :
    (upgradeOrComplete opv nsv syndesis env resources).applied = []
    ∨ (upgradeOrComplete opv nsv syndesis env resources).applied =
        (applyAll syndesis env.applyErr (setUpgradePodServiceAccount resources) 0).1 := by
  unfold upgradeOrComplete
  rcases ha : applyAll syndesis env.applyErr (setUpgradePodServiceAccount resources) 0
    with ⟨l, err⟩
  split
  · cases err with
    | some e => right; simp [ha]
    | none =>
        by_cases hf : syndesis.status.forceUpgrade = true
        · right; simp [ha, hf]
        · right; simp [ha, hf]
  · left; rfl

/-- Every run of `Execute` either applies nothing or exactly the calls of the
apply loop over the rendered, service-account-adjusted resource list. -/
lemma Execute_applied_cases (cache : String) (syn : Syndesis) (env : Env) :
    (Execute cache syn env).applied = []
    ∨ ∃ rs, env.upgradeResources = Except.ok rs
        ∧ (Execute cache syn env).applied =
            (applyAll syn env.applyErr (setUpgradePodServiceAccount rs) 0).1 := by
  unfold Execute
  cases htv : resolveTargetVersion cache env with
  | error e => simp [htv]
  | ok opv =>
    simp only [htv]
    cases hnv : env.namespaceVersion with
    | error e => simp [hnv]
    | ok nsv =>
      simp only [hnv]
      cases hrs : env.upgradeResources with
      | error e => simp [hrs]
      | ok rs =>
        simp only [hrs]
        cases hfp : findUpgradePod rs with
        | error e => simp [hfp]
        | ok tp =>
          simp only [hfp]
          cases hlp : env.livePod with
          | getError e => simp [hlp]
          | notFound =>
              simp only [hlp]
              rcases upgradeOrComplete_applied opv nsv syn env rs with h1 | h1
              · exact Or.inl h1
              · exact Or.inr ⟨rs, rfl, h1⟩
          | found ph =>
              simp only [hlp]
              by_cases hfu : syn.status.forceUpgrade = true
              · simp only [hfu, if_true]
                rcases upgradeOrComplete_applied opv nsv syn env rs with h1 | h1
                · exact Or.inl h1
                · exact Or.inr ⟨rs, rfl, h1⟩
              · rw [Bool.not_eq_true] at hfu
                simp only [hfu, Bool.false_eq_true, if_false]
                exact Or.inl (checkUpgradePodPhase_applied opv syn env ph)

/-- Once the operator version resolves, every exit of `Execute` carries that
version as the new cache value. -/
lemma Execute_cacheAfter_of_ok (cache : String) (syn : Syndesis) (env : Env) (t : String)
    (ht : resolveTargetVersion cache env = Except.ok t) :
    (Execute cache syn env).cacheAfter = t := by
  unfold Execute
  simp only [ht]
  cases hnv : env.namespaceVersion with
  | error e => rfl
  | ok nsv =>
    simp only [hnv]
    cases hrs : env.upgradeResources with
    | error e => rfl
    | ok rs =>
      simp only [hrs]
      cases hfp : findUpgradePod rs with
      | error e => rfl
      | ok tp =>
        simp only [hfp]
        cases hlp : env.livePod with
        | getError e => rfl
        | notFound => simp only; exact upgradeOrComplete_cacheAfter t nsv syn env rs
        | found ph =>
            simp only
            by_cases hfu : syn.status.forceUpgrade = true
            · simp only [hfu, if_true]
              exact upgradeOrComplete_cacheAfter t nsv syn env rs
            · rw [Bool.not_eq_true] at hfu
              simp only [hfu, Bool.false_eq_true, if_false]
              exact checkUpgradePodPhase_cacheAfter t syn env ph

/-- C2: in a reconciliation where the upgrade task is present, the upgrade is
not forced, and the observed pod phase is Failed, the committed status has
installation phase UpgradeFailureBackoff, the upgrade-pod-failed reason,
upgrade attempts equal to the prior value plus one, and a non-null last
upgrade failure time. -/
theorem upgrade_C2_backoff_on_failed (cache : String) (syn : Syndesis) (env : Env)
    (t v : String) (rs : List Resource) (p : Resource)
    (hforce : syn.status.forceUpgrade = false)
    (ht : resolveTargetVersion cache env = Except.ok t)
    (hv : env.namespaceVersion = Except.ok v)
    (hrs : env.upgradeResources = Except.ok rs)
    (hfp : findUpgradePod rs = Except.ok p)
    (hlp : env.livePod = GetPodResult.found PodPhase.failed) :
    (Execute cache syn env).statusSubmitted =
      some { syn.status with
        installationStatus := InstallationStatusType.upgradeFailureBackoff
        reason := StatusReason.upgradePodFailed
        lastUpgradeFailure := some env.now
        upgradeAttempts := syn.status.upgradeAttempts + 1 }
    ∧ ∀ st, (Execute cache syn env).statusSubmitted = some st →
        st.lastUpgradeFailure ≠ none := by
  rw [Execute_eq_checkPhase cache syn env t v rs p PodPhase.failed ht hv hrs hfp hforce hlp]
  have hval : (checkUpgradePodPhase t syn env PodPhase.failed).statusSubmitted =
      some { syn.status with
        installationStatus := InstallationStatusType.upgradeFailureBackoff
        reason := StatusReason.upgradePodFailed
        lastUpgradeFailure := some env.now
        upgradeAttempts := syn.status.upgradeAttempts + 1 } := by
    simp [checkUpgradePodPhase]
  refine ⟨hval, ?_⟩
  intro st hst
  rw [hval] at hst
  simp only [Option.some_inj] at hst
  rw [← hst]
  simp

/-- C2 witness: a concrete failed-pod reconciliation. -/
theorem upgrade_C2_witness :
    (Execute "" exSyn { exEnv with livePod := GetPodResult.found PodPhase.failed }).statusSubmitted =
      some { exSyn.status with
        installationStatus := InstallationStatusType.upgradeFailureBackoff
        reason := StatusReason.upgradePodFailed
        lastUpgradeFailure := some ({ exEnv with livePod := GetPodResult.found PodPhase.failed } : Env).now
        upgradeAttempts := exSyn.status.upgradeAttempts + 1 }
    ∧ ∀ st, (Execute "" exSyn { exEnv with livePod := GetPodResult.found PodPhase.failed }).statusSubmitted = some st →
        st.lastUpgradeFailure ≠ none :=
  upgrade_C2_backoff_on_failed "" exSyn { exEnv with livePod := GetPodResult.found PodPhase.failed }
    "1.5.0" "1.4.2" [exCfg, exPod] exPod rfl rfl rfl rfl rfl rfl

/-- C3: an installation in phase Upgrading whose namespace version equals the
target version, with no upgrade pod present, commits in one reconciliation the
Installed status: version set to the target, zero attempts, no failure time,
and force flag cleared, whatever the prior attempt count was. -/
theorem upgrade_C3_completed_when_current (cache : String) (syn : Syndesis) (env : Env)
    (t : String) (rs : List Resource) (p : Resource)
    (_hphase : CanExecute syn = true)
    (ht : resolveTargetVersion cache env = Except.ok t)
    (hv : env.namespaceVersion = Except.ok t)
    (hrs : env.upgradeResources = Except.ok rs)
    (hfp : findUpgradePod rs = Except.ok p)
    (hlp : env.livePod = GetPodResult.notFound) :
    (Execute cache syn env).statusSubmitted = some (upgradeCompletedStatus syn.status t)
    ∧ (upgradeCompletedStatus syn.status t).installationStatus = InstallationStatusType.installed
    ∧ (upgradeCompletedStatus syn.status t).version = t
    ∧ (upgradeCompletedStatus syn.status t).upgradeAttempts = 0
    ∧ (upgradeCompletedStatus syn.status t).lastUpgradeFailure = none
    ∧ (upgradeCompletedStatus syn.status t).forceUpgrade = false := by
  rw [Execute_eq_upgradeOrComplete cache syn env t t rs p ht hv hrs hfp (Or.inl hlp)
    (by rw [hlp]; rfl)]
  unfold upgradeOrComplete
  simp [upgradeCompletedStatus]

/-- C3 witness: a concrete already-current reconciliation with two prior
attempts and a prior failure time. -/
theorem upgrade_C3_witness :
    (Execute "" exSyn { exEnv with namespaceVersion := Except.ok "1.5.0" }).statusSubmitted =
      some (upgradeCompletedStatus exSyn.status "1.5.0")
    ∧ (upgradeCompletedStatus exSyn.status "1.5.0").installationStatus = InstallationStatusType.installed
    ∧ (upgradeCompletedStatus exSyn.status "1.5.0").version = "1.5.0"
    ∧ (upgradeCompletedStatus exSyn.status "1.5.0").upgradeAttempts = 0
    ∧ (upgradeCompletedStatus exSyn.status "1.5.0").lastUpgradeFailure = none
    ∧ (upgradeCompletedStatus exSyn.status "1.5.0").forceUpgrade = false :=
  upgrade_C3_completed_when_current "" exSyn { exEnv with namespaceVersion := Except.ok "1.5.0" }
    "1.5.0" [exCfg, exPod] exPod rfl rfl rfl rfl rfl rfl

/-- C4: in a reconciliation where the task is present, the upgrade is not
forced, the task succeeded, and the re-resolved namespace version still
differs from the target, the committed status has the force flag set and
every other field unchanged. -/
theorem upgrade_C4_force_on_version_mismatch (cache : String) (syn : Syndesis) (env : Env)
    (t v w : String) (rs : List Resource) (p : Resource)
    (hforce : syn.status.forceUpgrade = false)
    (ht : resolveTargetVersion cache env = Except.ok t)
    (hv : env.namespaceVersion = Except.ok v)
    (hrs : env.upgradeResources = Except.ok rs)
    (hfp : findUpgradePod rs = Except.ok p)
    (hlp : env.livePod = GetPodResult.found PodPhase.succeeded)
    (hre : env.namespaceVersionRecheck = Except.ok w)
    (hwt : w ≠ t) :
    (Execute cache syn env).statusSubmitted = some { syn.status with forceUpgrade := true }
    ∧ ∀ st, (Execute cache syn env).statusSubmitted = some st →
        st.installationStatus = syn.status.installationStatus
        ∧ st.reason = syn.status.reason
        ∧ st.version = syn.status.version
        ∧ st.upgradeAttempts = syn.status.upgradeAttempts
        ∧ st.lastUpgradeFailure = syn.status.lastUpgradeFailure
        ∧ st.forceUpgrade = true := by
  rw [Execute_eq_checkPhase cache syn env t v rs p PodPhase.succeeded ht hv hrs hfp hforce hlp]
  have hval : (checkUpgradePodPhase t syn env PodPhase.succeeded).statusSubmitted =
      some { syn.status with forceUpgrade := true } := by
    simp [checkUpgradePodPhase, hre, hwt]
  refine ⟨hval, ?_⟩
  intro st hst
  rw [hval] at hst
  simp only [Option.some_inj] at hst
  rw [← hst]
  simp

/-- C4 witness: a concrete succeeded-pod reconciliation whose rechecked
namespace version still reads the old value. -/
theorem upgrade_C4_witness :
    (Execute "" exSyn
        { exEnv with
          livePod := GetPodResult.found PodPhase.succeeded
          namespaceVersionRecheck := Except.ok "1.4.2" }).statusSubmitted =
      some { exSyn.status with forceUpgrade := true }
    ∧ ∀ st, (Execute "" exSyn
        { exEnv with
          livePod := GetPodResult.found PodPhase.succeeded
          namespaceVersionRecheck := Except.ok "1.4.2" }).statusSubmitted = some st →
        st.installationStatus = exSyn.status.installationStatus
        ∧ st.reason = exSyn.status.reason
        ∧ st.version = exSyn.status.version
        ∧ st.upgradeAttempts = exSyn.status.upgradeAttempts
        ∧ st.lastUpgradeFailure = exSyn.status.lastUpgradeFailure
        ∧ st.forceUpgrade = true :=
  upgrade_C4_force_on_version_mismatch "" exSyn
    { exEnv with
      livePod := GetPodResult.found PodPhase.succeeded
      namespaceVersionRecheck := Except.ok "1.4.2" }
    "1.5.0" "1.4.2" "1.4.2" [exCfg, exPod] exPod rfl rfl rfl rfl rfl rfl rfl
    (by decide)

/-- An environment for C1 as stated: upgrade forced, but the namespace
version already equals the target, and the upgrade pod exists. -/
def exEnvEq : Env :=
  { exEnv with
    namespaceVersion := Except.ok "1.5.0"
    livePod := GetPodResult.found PodPhase.running }

/-- C1 counterexample: with `forceUpgrade == true` but the namespace version
already equal to the target, the reconciliation completes without error and
applies no resource at all, although the rendered manifest set is non-empty;
the claim that every resource is applied fails at this input. -/
theorem upgrade_C1_counterexample :
    exSynForce.status.forceUpgrade = true
    ∧ exEnvEq.upgradeResources = Except.ok [exCfg, exPod]
    ∧ (Execute "" exSynForce exEnvEq).ret = none
    ∧ (Execute "" exSynForce exEnvEq).applied = [] := by
  refine ⟨rfl, rfl, ?_, ?_⟩ <;> decide

/-- C1 as amended: when `forceUpgrade == true`, the namespace version differs
from the target, and no step fails, a single `Execute` call clears
`forceUpgrade` to false and applies every resource of the rendered manifest
set (after the service account adjustment) with the force flag, even when the
live upgrade pod already exists. -/
theorem upgrade_C1_forced_reapply (cache : String) (syn : Syndesis) (env : Env)
    (t v : String) (rs : List Resource) (p : Resource)
    (hforce : syn.status.forceUpgrade = true)
    (ht : resolveTargetVersion cache env = Except.ok t)
    (hv : env.namespaceVersion = Except.ok v)
    (hne : v ≠ t)
    (hrs : env.upgradeResources = Except.ok rs)
    (hfp : findUpgradePod rs = Except.ok p)
    (hlp : GetPodResult.isErr env.livePod = false)
    (happly : ∀ i, env.applyErr i = none) :
    (Execute cache syn env).applied =
      (setUpgradePodServiceAccount rs).map
        (fun r => (setNamespaceAndOwnerReference r syn, true))
    ∧ (Execute cache syn env).statusSubmitted =
        some { syn.status with forceUpgrade := false }
    ∧ (∀ pr ∈ (Execute cache syn env).applied, pr.2 = true) := by
  rw [Execute_eq_upgradeOrComplete cache syn env t v rs p ht hv hrs hfp (Or.inr hforce) hlp]
  unfold upgradeOrComplete
  rw [if_pos hne]
  rw [applyAll_all_ok syn env.applyErr happly]
  refine ⟨?_, ?_, ?_⟩
  · simp [hforce]
  · simp [hforce]
  · simp [hforce]

/-- C1 witness: a forced reconciliation with differing versions and an
already-existing upgrade pod applies both rendered resources and clears
the flag. -/
theorem upgrade_C1_witness :
    (Execute "" exSynForce { exEnv with livePod := GetPodResult.found PodPhase.running }).applied =
      (setUpgradePodServiceAccount [exCfg, exPod]).map
        (fun r => (setNamespaceAndOwnerReference r exSynForce, true))
    ∧ (Execute "" exSynForce { exEnv with livePod := GetPodResult.found PodPhase.running }).statusSubmitted =
        some { exSynForce.status with forceUpgrade := false }
    ∧ (∀ pr ∈ (Execute "" exSynForce { exEnv with livePod := GetPodResult.found PodPhase.running }).applied,
        pr.2 = true) :=
  upgrade_C1_forced_reapply "" exSynForce
    { exEnv with livePod := GetPodResult.found PodPhase.running }
    "1.5.0" "1.4.2" [exCfg, exPod] exPod rfl rfl rfl (by decide) rfl rfl rfl
    (fun _ => rfl)

/-- C5: any reconciliation that starts with `forceUpgrade == true` and
returns nil submits, in that same call, a status whose `forceUpgrade` is
false: the flag never survives a successful reconciliation that saw it. -/
theorem upgrade_C5_force_one_shot (cache : String) (syn : Syndesis) (env : Env)
    (hforce : syn.status.forceUpgrade = true)
    (hok : (Execute cache syn env).ret = none) :
    ∃ st, (Execute cache syn env).statusSubmitted = some st
      ∧ st.forceUpgrade = false := by
  unfold Execute at hok ⊢
  cases htv : resolveTargetVersion cache env with
  | error e => simp only [htv] at hok; simp at hok
  | ok opv =>
    simp only [htv] at hok ⊢
    cases hnv : env.namespaceVersion with
    | error e => simp only [hnv] at hok; simp at hok
    | ok nsv =>
      simp only [hnv] at hok ⊢
      cases hrs : env.upgradeResources with
      | error e => simp only [hrs] at hok; simp at hok
      | ok rs =>
        simp only [hrs] at hok ⊢
        cases hfp : findUpgradePod rs with
        | error e => simp only [hfp] at hok; simp at hok
        | ok tp =>
          simp only [hfp] at hok ⊢
          cases hlp : env.livePod with
          | getError e => simp only [hlp] at hok; simp at hok
          | notFound =>
              simp only [hlp] at hok ⊢
              exact upgradeOrComplete_clears_force opv nsv syn env rs hforce hok
          | found ph =>
              simp only [hlp, hforce, if_true] at hok ⊢
              exact upgradeOrComplete_clears_force opv nsv syn env rs hforce hok

/-- C5 witness: the forced run of the C1 witness returns nil and clears
the flag. -/
theorem upgrade_C5_witness :
    ∃ st, (Execute "" exSynForce exEnv).statusSubmitted = some st
      ∧ st.forceUpgrade = false :=
  upgrade_C5_force_one_shot "" exSynForce exEnv rfl (by decide)

/-- C6: in any status the reconciler submits, the attempt counter is either
unchanged, or incremented by exactly one with the new phase being
UpgradeFailureBackoff, or reset to zero with the new phase being Installed;
under the Upgrading entry guard, a submitted status whose phase is neither
backoff nor Installed keeps the counter unchanged. -/
theorem upgrade_C6_attempts_transitions (cache : String) (syn : Syndesis) (env : Env)
    (st : SyndesisStatus)
    (hguard : CanExecute syn = true)
    (h : (Execute cache syn env).statusSubmitted = some st) :
    (st.upgradeAttempts = syn.status.upgradeAttempts
      ∨ (st.installationStatus = InstallationStatusType.upgradeFailureBackoff
          ∧ st.upgradeAttempts = syn.status.upgradeAttempts + 1)
      ∨ (st.installationStatus = InstallationStatusType.installed
          ∧ st.upgradeAttempts = 0))
    ∧ (st.installationStatus = InstallationStatusType.upgradeFailureBackoff →
        st.upgradeAttempts = syn.status.upgradeAttempts + 1)
    ∧ (st.installationStatus = InstallationStatusType.installed →
        st.upgradeAttempts = 0)
    ∧ (st.installationStatus ≠ InstallationStatusType.upgradeFailureBackoff →
        st.installationStatus ≠ InstallationStatusType.installed →
        st.upgradeAttempts = syn.status.upgradeAttempts) := by
  have hup : syn.status.installationStatus = InstallationStatusType.upgrading := by
    simpa [CanExecute, syndesisInstallationStatusIs] using hguard
  rcases Execute_submitted_cases cache syn env st h with h1 | h1 | ⟨v, h1⟩ | h1 <;> subst h1
  · exact ⟨Or.inl rfl, by simp [hup], by simp [hup], fun _ _ => rfl⟩
  · exact ⟨Or.inl rfl, by simp [hup], by simp [hup], fun _ _ => rfl⟩
  · exact ⟨Or.inr (Or.inr ⟨rfl, rfl⟩), by simp [upgradeCompletedStatus],
      fun _ => rfl, by simp [upgradeCompletedStatus]⟩
  · exact ⟨Or.inr (Or.inl ⟨rfl, rfl⟩), fun _ => rfl, by simp, by simp⟩

/-- C6 witness: the completed-upgrade commit resets the counter to zero. -/
theorem upgrade_C6_witness :
    ((upgradeCompletedStatus exStatus "1.5.0").upgradeAttempts = exSyn.status.upgradeAttempts
      ∨ ((upgradeCompletedStatus exStatus "1.5.0").installationStatus = InstallationStatusType.upgradeFailureBackoff
          ∧ (upgradeCompletedStatus exStatus "1.5.0").upgradeAttempts = exSyn.status.upgradeAttempts + 1)
      ∨ ((upgradeCompletedStatus exStatus "1.5.0").installationStatus = InstallationStatusType.installed
          ∧ (upgradeCompletedStatus exStatus "1.5.0").upgradeAttempts = 0))
    ∧ ((upgradeCompletedStatus exStatus "1.5.0").installationStatus = InstallationStatusType.upgradeFailureBackoff →
        (upgradeCompletedStatus exStatus "1.5.0").upgradeAttempts = exSyn.status.upgradeAttempts + 1)
    ∧ ((upgradeCompletedStatus exStatus "1.5.0").installationStatus = InstallationStatusType.installed →
        (upgradeCompletedStatus exStatus "1.5.0").upgradeAttempts = 0)
    ∧ ((upgradeCompletedStatus exStatus "1.5.0").installationStatus ≠ InstallationStatusType.upgradeFailureBackoff →
        (upgradeCompletedStatus exStatus "1.5.0").installationStatus ≠ InstallationStatusType.installed →
        (upgradeCompletedStatus exStatus "1.5.0").upgradeAttempts = exSyn.status.upgradeAttempts) :=
  upgrade_C6_attempts_transitions ""
    exSyn { exEnv with namespaceVersion := Except.ok "1.5.0" }
    (upgradeCompletedStatus exStatus "1.5.0") rfl (by decide)

/-- C7: the task locator returns the first pod-shaped resource of the
rendered sequence; when the sequence has none, `Execute` fails with the
task-not-found error (once the preceding steps succeed), submits no status
update, and applies nothing. -/
theorem upgrade_C7_task_locator (cache : String) (syn : Syndesis) (env : Env)
    (rs : List Resource)
    (hrs : env.upgradeResources = Except.ok rs)
    (hnone : rs.find? (fun r => r.isPod) = none) :
    findUpgradePod rs = Except.error "upgrade pod not found"
    ∧ (Execute cache syn env).statusSubmitted = none
    ∧ (Execute cache syn env).applied = []
    ∧ (∀ t v, resolveTargetVersion cache env = Except.ok t →
        env.namespaceVersion = Except.ok v →
        (Execute cache syn env).ret = some "upgrade pod not found")
    ∧ (∀ (rsx : List Resource) (p : Resource),
        rsx.find? (fun r => r.isPod) = some p → findUpgradePod rsx = Except.ok p) := by
  have hfp : findUpgradePod rs = Except.error "upgrade pod not found" := by
    rw [findUpgradePod_eq_find, hnone]
  have key : (Execute cache syn env).statusSubmitted = none
      ∧ (Execute cache syn env).applied = []
      ∧ ∀ t v, resolveTargetVersion cache env = Except.ok t →
          env.namespaceVersion = Except.ok v →
          (Execute cache syn env).ret = some "upgrade pod not found" := by
    unfold Execute
    cases htv : resolveTargetVersion cache env with
    | error e =>
        simp only [htv]
        exact ⟨trivial, trivial, fun t v h1 _ => by simp at h1⟩
    | ok t =>
        simp only [htv]
        cases hnv : env.namespaceVersion with
        | error e =>
            simp only [hnv]
            exact ⟨trivial, trivial, fun t' v h1 h2 => by simp at h2⟩
        | ok v =>
            simp [hnv, hrs, hfp]
  refine ⟨hfp, key.1, key.2.1, key.2.2, ?_⟩
  intro rsx p hp
  rw [findUpgradePod_eq_find, hp]

/-- C7 witness: a manifest set of one non-pod resource. -/
theorem upgrade_C7_witness :
    findUpgradePod [exCfg] = Except.error "upgrade pod not found"
    ∧ (Execute "" exSyn { exEnv with upgradeResources := Except.ok [exCfg] }).statusSubmitted = none
    ∧ (Execute "" exSyn { exEnv with upgradeResources := Except.ok [exCfg] }).applied = []
    ∧ (∀ t v, resolveTargetVersion "" { exEnv with upgradeResources := Except.ok [exCfg] } = Except.ok t →
        ({ exEnv with upgradeResources := Except.ok [exCfg] } : Env).namespaceVersion = Except.ok v →
        (Execute "" exSyn { exEnv with upgradeResources := Except.ok [exCfg] }).ret =
          some "upgrade pod not found")
    ∧ (∀ (rsx : List Resource) (p : Resource),
        rsx.find? (fun r => r.isPod) = some p → findUpgradePod rsx = Except.ok p) :=
  upgrade_C7_task_locator "" exSyn { exEnv with upgradeResources := Except.ok [exCfg] }
    [exCfg] rfl (by decide)

/-- C8: a reconciliation whose target version resolution, namespace version
resolution, resource rendering or loading, task location, or live pod fetch
fails never submits a status update and never applies a resource. -/
theorem upgrade_C8_no_commit_on_error (cache : String) (syn : Syndesis) (env : Env)
    (h : (∃ e, resolveTargetVersion cache env = Except.error e)
      ∨ (∃ e, env.namespaceVersion = Except.error e)
      ∨ (∃ e, env.upgradeResources = Except.error e)
      ∨ (∃ rs, env.upgradeResources = Except.ok rs
          ∧ rs.find? (fun r => r.isPod) = none)
      ∨ (∃ e, env.livePod = GetPodResult.getError e)) :
    (Execute cache syn env).statusSubmitted = none
    ∧ (Execute cache syn env).applied = [] := by
  unfold Execute
  cases htv : resolveTargetVersion cache env with
  | error e => simp [htv]
  | ok t =>
    simp only [htv]
    cases hnv : env.namespaceVersion with
    | error e => simp [hnv]
    | ok v =>
      simp only [hnv]
      cases hrs : env.upgradeResources with
      | error e => simp [hrs]
      | ok rs =>
        simp only [hrs]
        cases hfp : findUpgradePod rs with
        | error e => simp [hfp]
        | ok tp =>
          simp only [hfp]
          cases hlp : env.livePod with
          | getError e => simp [hlp]
          | notFound =>
              exfalso
              rcases h with ⟨e, he⟩ | ⟨e, he⟩ | ⟨e, he⟩ | ⟨rsx, hrsx, hfind⟩ | ⟨e, he⟩
              · rw [he] at htv; cases htv
              · rw [he] at hnv; cases hnv
              · rw [he] at hrs; cases hrs
              · rw [hrs] at hrsx
                injection hrsx with hq
                subst hq
                rw [findUpgradePod_eq_find, hfind] at hfp
                cases hfp
              · rw [he] at hlp; cases hlp
          | found ph =>
              exfalso
              rcases h with ⟨e, he⟩ | ⟨e, he⟩ | ⟨e, he⟩ | ⟨rsx, hrsx, hfind⟩ | ⟨e, he⟩
              · rw [he] at htv; cases htv
              · rw [he] at hnv; cases hnv
              · rw [he] at hrs; cases hrs
              · rw [hrs] at hrsx
                injection hrsx with hq
                subst hq
                rw [findUpgradePod_eq_find, hfind] at hfp
                cases hfp
              · rw [he] at hlp; cases hlp

/-- C8 witness: a failing namespace version read submits and applies
nothing. -/
theorem upgrade_C8_witness :
    (Execute "" exSyn { exEnv with namespaceVersion := Except.error "boom" }).statusSubmitted = none
    ∧ (Execute "" exSyn { exEnv with namespaceVersion := Except.error "boom" }).applied = [] :=
  upgrade_C8_no_commit_on_error "" exSyn
    { exEnv with namespaceVersion := Except.error "boom" }
    (Or.inr (Or.inl ⟨"boom", rfl⟩))

/-- C9: the operator version is read from the bundled template only through
the lazy cache: a call with an empty cache stores the first successful read,
a failed read leaves the cache empty (so a later call reads again), and a
call with a non-empty cache keeps it and behaves identically for any value of
the template read, never consulting it. -/
theorem upgrade_C9_version_cached (syn : Syndesis) (env : Env) :
    (∀ v, env.operatorTemplateVersion = Except.ok v →
        (Execute "" syn env).cacheAfter = v)
    ∧ (∀ e, env.operatorTemplateVersion = Except.error e →
        (Execute "" syn env).cacheAfter = "" ∧ (Execute "" syn env).ret = some e)
    ∧ (∀ cache, cache ≠ "" →
        (Execute cache syn env).cacheAfter = cache
        ∧ ∀ tv, Execute cache syn env =
            Execute cache syn { env with operatorTemplateVersion := tv }) := by
  refine ⟨?_, ?_, ?_⟩
  · intro v hv
    exact Execute_cacheAfter_of_ok "" syn env v (by simp [resolveTargetVersion, hv])
  · intro e he
    have htv : resolveTargetVersion "" env = Except.error e := by
      simp [resolveTargetVersion, he]
    constructor
    · unfold Execute; simp [htv]
    · unfold Execute; simp [htv]
  · intro cache hc
    have htv : resolveTargetVersion cache env = Except.ok cache := by
      simp [resolveTargetVersion, hc]
    refine ⟨Execute_cacheAfter_of_ok cache syn env cache htv, ?_⟩
    intro tv
    have htv2 : resolveTargetVersion cache { env with operatorTemplateVersion := tv } =
        Except.ok cache := by
      simp [resolveTargetVersion, hc]
    unfold Execute
    simp only [htv, htv2, upgradeOrComplete, checkUpgradePodPhase]

/-- C9 witness: the healthy environment populates the cache with the
template version. -/
theorem upgrade_C9_witness : (Execute "" exSyn exEnv).cacheAfter = "1.5.0" :=
  (upgrade_C9_version_cached exSyn exEnv).1 "1.5.0" rfl

/-- C10: whenever the pod template occurs among the resources a run of
`Execute` passed to the applier, it carries the fixed upgrade pod service
account name, set before any apply call was issued. -/
theorem upgrade_C10_pod_service_account (cache : String) (syn : Syndesis) (env : Env)
    (p : Resource)
    (h : ((Execute cache syn env).applied.map Prod.fst).find? (fun r => r.isPod) = some p) :
    p.serviceAccountName = UpgradePodServiceAccountName := by
  rcases Execute_applied_cases cache syn env with ha | ⟨rs, hrs, ha⟩
  · rw [ha] at h; simp at h
  · rw [ha] at h
    exact setSA_find_pod syn p rs
      (applyAll_find_pod syn env.applyErr p (setUpgradePodServiceAccount rs) 0 h)

/-- C10 witness: the applied pod of the healthy run carries the fixed
service account. -/
theorem upgrade_C10_witness :
    ({ isPod := true, resName := "upgrade-pod", serviceAccountName := "syndesis-operator",
       ns := "prod", ownerRef := some "app" } : Resource).serviceAccountName =
      UpgradePodServiceAccountName :=
  upgrade_C10_pod_service_account "" exSyn exEnv _ (by decide)

end SyndesisUpgrade
